import Mathlib

/-!
Verification development for the dynamic tool runtime of the seismic
data-retrieval agent: the static code validator
(`z_self_evolving_test/tool_runtime/parser.py`), the tool registry
(`z_self_evolving_test/tool_runtime/registry.py`) and the execution sandbox
(`z_self_evolving_test/tool_runtime/sandbox.py`), shallowly embedded in Lean.
-/

namespace ToolRuntime

/-! ## Python AST model

The validator operates on `ast.parse` output.  `Node` models the node kinds
the checks in `_check_ast` distinguish, plus enough generic statement and
expression shapes (`assign`, `ret`, `binop`, `forStmt`, ...) to build the
function bodies that appear in candidate sources.  All sub-statement and
sub-expression lists are retained so that a tree traversal sees every node,
as `ast.walk` does. -/

inductive Node where
  | functionDef (name : String) (params : List String) (body : List Node)
  | asyncFunctionDef (name : String) (params : List String) (body : List Node)
  | classDef (name : String) (body : List Node)
  | importStmt (modules : List String)
  | importFrom (module : Option String) (names : List String)
  | withStmt (items : List Node) (body : List Node)
  | asyncWith (items : List Node) (body : List Node)
  | asyncFor (body : List Node)
  | lambdaExpr (body : Node)
  | tryStmt (body : List Node) (handlers : List Node) (orelse : List Node) (finalBody : List Node)
  | callName (fn : String) (args : List Node)
  | callAttr (obj : Node) (attr : String) (args : List Node)
  | assign (value : Node)
  | ret (value : Node)
  | nameExpr (id : String)
  | binop (l : Node) (r : Node)
  | constExpr
  | exprStmt (value : Node)
  | forStmt (iter : Node) (body : List Node)

/-- Result of `ast.parse`: the module body (`tree.body`). -/
structure PyModule where
  body : List Node

/-!
`walkNode` enumerates a node and all of its descendants, as `ast.walk(tree)`
enumerates them.  (`ast.walk` is breadth-first; this enumeration is
depth-first.  Every property proved below depends only on the set of
enumerated nodes, or concerns trees whose first violating node is the same
under both orders.) -/
mutual

def walkNode : Node → List Node
  | .functionDef n p b => .functionDef n p b :: walkNodes b
  | .asyncFunctionDef n p b => .asyncFunctionDef n p b :: walkNodes b
  | .classDef n b => .classDef n b :: walkNodes b
  | .importStmt ms => [.importStmt ms]
  | .importFrom m ns => [.importFrom m ns]
  | .withStmt its b => .withStmt its b :: (walkNodes its ++ walkNodes b)
  | .asyncWith its b => .asyncWith its b :: (walkNodes its ++ walkNodes b)
  | .asyncFor b => .asyncFor b :: walkNodes b
  | .lambdaExpr b => .lambdaExpr b :: walkNode b
  | .tryStmt b h o f => .tryStmt b h o f :: (walkNodes b ++ walkNodes h ++ walkNodes o ++ walkNodes f)
  | .callName f a => .callName f a :: walkNodes a
  | .callAttr o at_ a => .callAttr o at_ a :: (walkNode o ++ walkNodes a)
  | .assign v => .assign v :: walkNode v
  | .ret v => .ret v :: walkNode v
  | .nameExpr i => [.nameExpr i]
  | .binop l r => .binop l r :: (walkNode l ++ walkNode r)
  | .constExpr => [.constExpr]
  | .exprStmt v => .exprStmt v :: walkNode v
  | .forStmt it b => .forStmt it b :: (walkNode it ++ walkNodes b)

def walkNodes : List Node → List Node
  | [] => []
  | n :: ns => walkNode n ++ walkNodes ns

end

/-! ## Validator configuration (parser.py, lines 9-12) -/

def ALLOWED_ROOTS : List String :=
  ["obspy", "numpy", "math", "typing", "collections", "seisbench"]

def FORBIDDEN_CALLS : List String :=
  ["exec", "eval", "open", "compile", "__import__", "system", "popen"]

def MAX_FUNC_SOURCE_CHARS : Nat := 8000

def MAX_FUNC_LINES : Nat := 300

/-! ## Validation errors

Each constructor corresponds to one `raise ValueError(...)` site in
parser.py; `message` carries the actual message text. -/

inductive ValErr where
  | sizeChars
  | sizeLines
  | syntaxInvalid (msg : String) (line : Nat)
  | notOneFunction
  | topLevelStatement
  | forbiddenConstruct
  | disallowedImport (module : String)
  | wildcardImport
  | forbiddenCall (name : String)
  | forbiddenAttrCall (name : String)
  | functionNotFound
  | functionNotGenerated
deriving DecidableEq

def ValErr.message : ValErr → String
  | .sizeChars => "代码过长（字符数超限）"
  | .sizeLines => "代码过长（行数超限）"
  | .syntaxInvalid m _ => "语法错误: " ++ m
  | .notOneFunction => "代码必须且只能包含一个函数定义"
  | .topLevelStatement => "顶层只能包含 import 与该函数定义，发现其它语句被拒绝"
  | .forbiddenConstruct => "不允许的结构（class/with/try/lambda/async）"
  | .disallowedImport m => "禁止导入模块: " ++ m
  | .wildcardImport => "禁止使用 from ... import *"
  | .forbiddenCall n => "禁止调用: " ++ n
  | .forbiddenAttrCall n => "禁止调用属性方法: " ++ n
  | .functionNotFound => "未找到函数定义"
  | .functionNotGenerated => "函数未正确生成"

/-! ## _is_allowed_import_root (parser.py, lines 36-40) -/

/-- Characters of `module.split(".")[0]`: the prefix up to the first dot. -/
def rootChars : List Char → List Char
  | [] => []
  | c :: cs => if c = '.' then [] else c :: rootChars cs

def is_allowed_import_root (module : String) : Bool :=
  if module = "" then false
  else ALLOWED_ROOTS.contains ⟨rootChars module.toList⟩

/-! ## Per-node checks of the `ast.walk` loop in _check_ast (lines 58-81)

The loop visits each node; for one node the checks run in source order:
forbidden-construct kinds first, then the import / import-from / call
branches.  The import alias loop and the wildcard loop stop at the first
offending alias, as the `for`/`raise` in the source does. -/

def checkImportAliases : List String → Except ValErr Unit
  | [] => .ok ()
  | a :: rest =>
    if is_allowed_import_root a then checkImportAliases rest
    else .error (.disallowedImport a)

def checkWildcard : List String → Except ValErr Unit
  | [] => .ok ()
  | a :: rest =>
    if a = "*" then .error .wildcardImport else checkWildcard rest

def checkNode : Node → Except ValErr Unit
  | .classDef _ _ => .error .forbiddenConstruct
  | .withStmt _ _ => .error .forbiddenConstruct
  | .lambdaExpr _ => .error .forbiddenConstruct
  | .asyncFunctionDef _ _ _ => .error .forbiddenConstruct
  | .asyncFor _ => .error .forbiddenConstruct
  | .asyncWith _ _ => .error .forbiddenConstruct
  | .importStmt names => checkImportAliases names
  | .importFrom m names =>
    let module := m.getD ""
    if is_allowed_import_root module then checkWildcard names
    else .error (.disallowedImport module)
  | .callName f _ =>
    if FORBIDDEN_CALLS.contains f then .error (.forbiddenCall f) else .ok ()
  | .callAttr _ t _ =>
    if FORBIDDEN_CALLS.contains t then .error (.forbiddenAttrCall t) else .ok ()
  | _ => .ok ()

/-- The `for node in ast.walk(tree)` loop: first violation raises. -/
def runChecks : List Node → Except ValErr Unit
  | [] => .ok ()
  | n :: ns =>
    match checkNode n with
    | .error e => .error e
    | .ok () => runChecks ns

def isFunctionDefB : Node → Bool
  | .functionDef _ _ _ => true
  | _ => false

def isImportB : Node → Bool
  | .importStmt _ => true
  | _ => false

def isImportFromB : Node → Bool
  | .importFrom _ _ => true
  | _ => false

/-! ## _check_ast (parser.py, lines 42-81)

`ast.walk(tree)` starts at the `Module` node, which matches none of the
checked node classes, so walking the module is walking its body. -/

def check_ast (tree : PyModule) : Except ValErr Unit :=
  if (tree.body.filter isFunctionDefB).length ≠ 1 then .error .notOneFunction
  else if (tree.body.filter fun n => !(isFunctionDefB n || isImportB n || isImportFromB n)).isEmpty
    then runChecks (walkNodes tree.body)
  else .error .topLevelStatement

/-! ## extract_function (parser.py, lines 83-139) -/

/-- The observations `extract_function` makes of the raw source text, with
    parsing abstracted: `numChars` is `len(norm)` of the `\r\n`-normalized
    source, `numNewlines` its `norm.count("\n")`, and `parse` the result of
    `ast.parse(norm)` (a syntax error carries message and line). -/
structure RawCode where
  numChars : Nat
  numNewlines : Nat
  parse : Except (String × Nat) PyModule

/-- Global namespace a compiled function object is bound to: either the
    restricted dict `{"__builtins__": safe_builtins}` built in
    `extract_function`, or the ordinary namespace of an imported module
    (full default builtins, including process, filesystem and import
    primitives). -/
inductive GlobalNs where
  | restricted (builtins : List String)
  | moduleGlobals (moduleName : String)
deriving DecidableEq

/-- A compiled Python function object: its name, the `FunctionDef` subtree it
    was compiled from, and the global namespace it is bound to. -/
structure PyFn where
  name : String
  source : Node
  globalNs : GlobalNs

/-- The keys of `safe_builtins` (parser.py, lines 122-127). -/
def safe_builtins : List String :=
  ["len", "range", "min", "max", "sum", "abs", "float", "int", "str",
   "enumerate", "zip", "list", "dict", "set", "sorted", "any", "all"]

/-- First-occurrence lookup in a string-keyed association list, the shape of a
    Python dict restricted to the keys the program uses. -/
def lookupS {α : Type} : List (String × α) → String → Option α
  | [], _ => none
  | (k, v) :: rest, key => if k = key then some v else lookupS rest key

/-- The loop `for node in tree.body: if isinstance(node, ast.FunctionDef) and
    node.name == func_name` (parser.py, lines 109-112). -/
def findTarget (body : List Node) (funcName : String) : Option Node :=
  body.find? fun n =>
    match n with
    | .functionDef nm _ _ => nm == funcName
    | _ => false

/-- Effect of `exec(fn_src, {"__builtins__": safe_builtins}, loc)`: executing a
    single function-definition statement binds exactly that function's own name
    in `loc`, to a function object closed over the restricted namespace. -/
def execFunctionDef (src : Node) : List (String × PyFn) :=
  match src with
  | .functionDef nm ps b => [(nm, ⟨nm, .functionDef nm ps b, .restricted safe_builtins⟩)]
  | _ => []

/-- extract_function: size gates, parse, `_check_ast`, locate the target
    `FunctionDef`, re-extract its exact span (`ast.get_source_segment`, which
    succeeds for a node of a successfully parsed tree and is abstracted as the
    node itself), and compile it in the restricted namespace.  Returns the
    function object and the canonical source. -/
def extract_function (code : RawCode) (func_name : String) : Except ValErr (PyFn × Node) :=
  if code.numChars > MAX_FUNC_SOURCE_CHARS then .error .sizeChars
  else if code.numNewlines + 1 > MAX_FUNC_LINES then .error .sizeLines
  else
    match code.parse with
    | .error (msg, line) => .error (.syntaxInvalid msg line)
    | .ok tree =>
      match check_ast tree with
      | .error e => .error e
      | .ok () =>
        match findTarget tree.body func_name with
        | none => .error .functionNotFound
        | some target =>
          match lookupS (execFunctionDef target) func_name with
          | none => .error .functionNotGenerated
          | some fn => .ok (fn, target)

/-! ## Tool registry (registry.py)

A metadata record is a JSON dict; `MetaRecord` models it as one optional
slot per key the program reads or writes (`name`, `desc`, `signature`,
`origin`, `uses`, `success`, plus the `module` key written by
`register_dynamic_tool` and the `ok` key written by `_load_dynamic_tools`).
An absent key is `none`. -/

structure MetaRecord where
  name : Option String := none
  desc : Option String := none
  signature : Option String := none
  origin : Option String := none
  uses : Option Nat := none
  success : Option Nat := none
  ok : Option Nat := none
  module : Option String := none
deriving DecidableEq

def emptyRecord : MetaRecord := {}

/-- Python truthiness of the record as a dict: an empty dict is falsy. -/
def MetaRecord.isEmptyDict (m : MetaRecord) : Bool :=
  m.name.isNone && m.desc.isNone && m.signature.isNone && m.origin.isNone &&
  m.uses.isNone && m.success.isNone && m.ok.isNone && m.module.isNone

/-- Key-is-present merge of one slot, as `dict.update` treats one key: the
    update value wins when the key is present in the update dict. -/
def oUpd {α : Type} (new old : Option α) : Option α :=
  match new with
  | some v => some v
  | none => old

/-- `m.update(meta)` over the modelled keys. -/
def MetaRecord.updateWith (m p : MetaRecord) : MetaRecord :=
  ⟨oUpd p.name m.name, oUpd p.desc m.desc, oUpd p.signature m.signature,
   oUpd p.origin m.origin, oUpd p.uses m.uses, oUpd p.success m.success,
   oUpd p.ok m.ok, oUpd p.module m.module⟩

/-- `d[k] = v` on a dict modelled as a first-occurrence association list. -/
def setEntry {α : Type} : List (String × α) → String → α → List (String × α)
  | [], k, v => [(k, v)]
  | (k1, v1) :: rest, k, v =>
    if k1 = k then (k, v) :: rest else (k1, v1) :: setEntry rest k v

/-- The module-level mutable state of registry.py: `_tool_registry`,
    `_tool_meta`, the `tool_<name>.py` source files of the dynamic-tools
    directory (each holding one function definition), and the persisted
    content of `tools_meta.json`. -/
structure RegistryState where
  registry : List (String × PyFn)
  meta : List (String × MetaRecord)
  files : List (String × Node)
  metaFile : List (String × MetaRecord)

def emptyState : RegistryState := ⟨[], [], [], []⟩

/-- register (registry.py, lines 39-55): store the callable, merge the
    supplied metadata over any previously stored record, fill defaults for
    absent keys, persist the full store (`_save_meta`). -/
def register (st : RegistryState) (name : String) (func : PyFn) (meta : MetaRecord) :
    RegistryState :=
  let registry1 := setEntry st.registry name func
  let m0 := (lookupS st.meta name).getD emptyRecord
  let m1 := m0.updateWith meta
  let m2 : MetaRecord :=
    { m1 with
      name := some (m1.name.getD name),
      desc := some (m1.desc.getD ""),
      signature := some (m1.signature.getD ""),
      origin := some (m1.origin.getD "unknown"),
      uses := some (m1.uses.getD 0),
      success := some (m1.success.getD 0) }
  let meta1 := setEntry st.meta name m2
  ⟨registry1, meta1, st.files, meta1⟩

/-- mark_use (registry.py, lines 58-68).  Note `if not m: return` is also
    taken for a present-but-empty record, since an empty dict is falsy. -/
def mark_use (st : RegistryState) (name : String) (okFlag : Bool) : RegistryState :=
  match lookupS st.meta name with
  | none => st
  | some m =>
    if m.isEmptyDict then st
    else
      let m1 : MetaRecord :=
        { m with
          uses := some (m.uses.getD 0 + 1),
          success := if okFlag then some (m.success.getD 0 + 1) else m.success }
      let meta1 := setEntry st.meta name m1
      { st with meta := meta1, metaFile := meta1 }

/-- get (registry.py, lines 71-72). -/
def get (st : RegistryState) (name : String) : Option PyFn :=
  lookupS st.registry name

/-- One row of `list_meta`'s output. -/
structure MetaView where
  name : String
  desc : String
  signature : String
  uses : Nat
  success : Nat
  origin : String
deriving DecidableEq

/-- Building one row of `list_meta` reads `m["name"]` unguarded: on a record
    with no `name` key the subscript raises `KeyError`, modelled as `none`. -/
def viewRecord (m : MetaRecord) : Option MetaView :=
  match m.name with
  | none => none
  | some n =>
    some ⟨n, m.desc.getD "", m.signature.getD "", m.uses.getD 0, m.success.getD 0,
          m.origin.getD ""⟩

def insertByName (x : MetaView) : List MetaView → List MetaView
  | [] => [x]
  | y :: ys => if x.name < y.name then x :: y :: ys else y :: insertByName x ys

/-- `sorted(..., key=lambda x: x["name"])` on rows with the `name` key
    already extracted. -/
def sortByName : List MetaView → List MetaView
  | [] => []
  | x :: xs => insertByName x (sortByName xs)

/-- list_meta (registry.py, lines 75-86): sort the records by `m["name"]` and
    normalise each row.  Both the sort key and the row builder subscript
    `m["name"]` unguarded, so the whole call raises `KeyError` (here: `none`)
    as soon as any record lacks the `name` key; rows are sorted by the same
    name that the view carries, so sorting views equals sorting records. -/
def list_meta (meta : List (String × MetaRecord)) : Option (List MetaView) :=
  if meta.all (fun kv => kv.2.name.isSome) then
    some (sortByName (meta.filterMap fun kv => viewRecord kv.2))
  else none

/-- One line of `format_tools_for_prompt` (registry.py, line 95): note the
    success counter is labelled `ok=`. -/
def render_line (m : MetaView) : String :=
  m.name ++ m.signature ++ " - " ++ m.desc ++ " uses=" ++ toString m.uses ++
  " ok=" ++ toString m.success

/-- format_tools_for_prompt (registry.py, lines 89-96). -/
def format_tools_for_prompt (meta : List (String × MetaRecord)) : Option String :=
  (list_meta meta).map fun items =>
    if items.isEmpty then "(无已注册工具)"
    else String.intercalate "\n" (items.map render_line)

/-- _load_meta's effect on `_tool_meta` (registry.py, lines 19-27):
    `_tool_meta.update(data)` with the raw decoded store, whatever record
    shapes it holds. -/
def load_meta (st : RegistryState) (data : List (String × MetaRecord)) : RegistryState :=
  { st with meta := data.foldl (fun m kv => setEntry m kv.1 kv.2) st.meta }

/-! ## register_dynamic_tool (parser.py, lines 156-192) -/

def dynModuleName (name : String) : String :=
  "z_self_evolving_test.dynamic_tools.tool_" ++ name

/-- Names bound at top level by executing a written tool file, whose content
    is one comment line plus the canonical function source. -/
def moduleBinds : Node → List String
  | .functionDef n _ _ => [n]
  | _ => []

/-- `str(inspect.signature(fn))` for a function of plain positional
    parameters. -/
def py_signature : Node → String
  | .functionDef _ ps _ => "(" ++ String.intercalate ", " ps ++ ")"
  | _ => ""

/-- register_dynamic_tool: validate (`extract_function`; an error propagates
    before any state is touched), write the canonical source to
    `tool_<name>.py` (the `mkdir` and `__init__.py` scaffolding does not
    affect the modelled state), import the written module — which executes
    the file in a fresh module namespace with the full default builtins —
    take the module-level function (falling back to the restricted-namespace
    callable only if the module lacks the name), and register it. -/
def register_dynamic_tool (st : RegistryState) (name : String) (code : RawCode)
    (desc : String) : Except ValErr PyFn × RegistryState :=
  match extract_function code name with
  | .error e => (.error e, st)
  | .ok (fn, src) =>
    let files1 := setEntry st.files name src
    let real_fn : PyFn :=
      if (moduleBinds src).contains name then ⟨name, src, .moduleGlobals (dynModuleName name)⟩
      else fn
    let sig := py_signature src
    let patch : MetaRecord :=
      { desc := some desc, signature := some sig, origin := some "dynamic",
        module := some (dynModuleName name) }
    let st1 : RegistryState := { st with files := files1 }
    (.ok real_fn, register st1 name real_fn patch)

/-! ## Execution sandbox (sandbox.py) -/

/-- A callable with explicit wall-clock semantics: `run a = some (t, r)`
    when the call on `a` finishes after `t` seconds with result `r`, and
    `none` when the call never returns. -/
structure TimedFn (α β : Type) where
  run : α → Option (Nat × β)

/-- What the caller of `run_in_sandbox` observes. -/
inductive SandboxOutcome (β : Type) where
  | ok (r : β)
  | timeoutError
  | runtimeError (msg : String)
  | noOutput
  | hang
deriving DecidableEq

/-- run_in_sandbox (sandbox.py, lines 17-56): the first statement of the body
    is an unconditional `return func(**params)` (the `if getattr(func,
    "_run_inline", False):` guard above it is commented out), so every call —
    dynamic or built-in — is executed in-process and the subprocess code
    below the return is unreachable.  An in-process call of a function that
    never returns blocks the caller forever. -/
def run_in_sandbox {α β : Type} (func : TimedFn α β) (params : α) (timeout : Nat) :
    SandboxOutcome β :=
  match func.run params with
  | some (_, r) => .ok r
  | none => .hang

/-- The subprocess branch of run_in_sandbox (sandbox.py, lines 29-56),
    unreachable behind the early return: spawn a worker, `p.join(timeout)`,
    terminate and raise `TimeoutError` if it is still alive, otherwise return
    its result.  Modelled from the dead code for contrast with the code's
    actual behaviour. -/
def worker_isolated_call {α β : Type} (func : TimedFn α β) (params : α) (timeout : Nat) :
    SandboxOutcome β :=
  match func.run params with
  | some (t, r) => if t ≤ timeout then .ok r else .timeoutError
  | none => .timeoutError

/-! ## Renderer prescribed by the spec's words

For the refinement comparison of claim C4: the spec prescribes one line per
tool as `name(signature) - description uses=U success=S`. -/

def spec_render_line (m : MetaView) : String :=
  m.name ++ m.signature ++ " - " ++ m.desc ++ " uses=" ++ toString m.uses ++
  " success=" ++ toString m.success

def spec_format_for_injection (meta : List (String × MetaRecord)) : Option String :=
  (list_meta meta).map fun items =>
    if items.isEmpty then "(无已注册工具)"
    else String.intercalate "\n" (items.map spec_render_line)

/-! ## Derived observations used in the statements -/

/-- Whether validation succeeded. -/
def isOkE {α : Type} : Except ValErr α → Bool
  | .ok _ => true
  | .error _ => false

/-- Whether validation failed specifically with `DisallowedImport`. -/
def isDisallowedImportE {α : Type} : Except ValErr α → Bool
  | .error (.disallowedImport _) => true
  | _ => false

/-- Whether a node passes the per-node checks of the walk loop. -/
def checkPassesB (n : Node) : Bool :=
  match checkNode n with
  | .ok _ => true
  | .error _ => false

/-- Whether a node trips the forbidden-construct check. -/
def constructViolationB (n : Node) : Bool :=
  match checkNode n with
  | .error .forbiddenConstruct => true
  | _ => false

/-- The module named when a node trips an import-root check. -/
def importViolation (n : Node) : Option String :=
  match checkNode n with
  | .error (.disallowedImport m) => some m
  | _ => none

/-- Modules of all disallowed-root imports occurring anywhere in the tree. -/
def disallowedModules (tree : PyModule) : List String :=
  (walkNodes tree.body).filterMap importViolation

def isWithNodeB : Node → Bool
  | .withStmt _ _ => true
  | _ => false

def isTryNodeB : Node → Bool
  | .tryStmt _ _ _ _ => true
  | _ => false

def hasWildcardB : Node → Bool
  | .importFrom _ ns => ns.contains "*"
  | _ => false

/-- The tree contains a context-manager block somewhere. -/
def containsWith (tree : PyModule) : Bool :=
  (walkNodes tree.body).any isWithNodeB

/-- The tree contains a try statement somewhere. -/
def containsTry (tree : PyModule) : Bool :=
  (walkNodes tree.body).any isTryNodeB

/-- The tree contains a `from ... import *` somewhere. -/
def containsWildcard (tree : PyModule) : Bool :=
  (walkNodes tree.body).any hasWildcardB

/-- The top-level shape check of `_check_ast` passes: exactly one function
    definition and nothing but imports beside it. -/
def structureOkB (tree : PyModule) : Bool :=
  ((tree.body.filter isFunctionDefB).length == 1) &&
  (tree.body.filter fun n => !(isFunctionDefB n || isImportB n || isImportFromB n)).isEmpty

/-- The `uses` counter of the stored record under `name`. -/
def usesOf (st : RegistryState) (name : String) : Option Nat :=
  (lookupS st.meta name).bind fun m => m.uses

/-- The `success` counter of the stored record under `name`. -/
def successOf (st : RegistryState) (name : String) : Option Nat :=
  (lookupS st.meta name).bind fun m => m.success

def originOf (st : RegistryState) (name : String) : Option String :=
  (lookupS st.meta name).bind fun m => m.origin

def descOf (st : RegistryState) (name : String) : Option String :=
  (lookupS st.meta name).bind fun m => m.desc

def sigOf (st : RegistryState) (name : String) : Option String :=
  (lookupS st.meta name).bind fun m => m.signature

/-! ## Concrete inputs

Concrete candidate sources and registry states used to instantiate the
theorems.  Sizes are the character and newline counts of the corresponding
Python text; all are far below the limits. -/

/-- `def add_two(a, b):\n    return a + b` — the spec's concrete scenario. -/
def add_two_src : Node :=
  .functionDef "add_two" ["a", "b"] [.ret (.binop (.nameExpr "a") (.nameExpr "b"))]

def add_two_code : RawCode := ⟨37, 1, .ok ⟨[add_two_src]⟩⟩

/-- `import subprocess\n\ndef go(c):\n    subprocess.run(c)` — the spec's
    rejected process-execution scenario. -/
def cx3_tree : PyModule :=
  ⟨[.importStmt ["subprocess"],
    .functionDef "go" ["c"] [.exprStmt (.callAttr (.nameExpr "subprocess") "run" [.nameExpr "c"])]]⟩

def cx3_code : RawCode := ⟨52, 3, .ok cx3_tree⟩

/-- `import os\n\ndef f():\n    return 0\n\ndef g():\n    return 0` — a
    disallowed import beside two top-level function definitions. -/
def cx7_tree : PyModule :=
  ⟨[.importStmt ["os"],
    .functionDef "f" [] [.ret .constExpr],
    .functionDef "g" [] [.ret .constExpr]]⟩

def cx7_code : RawCode := ⟨58, 7, .ok cx7_tree⟩

/-- `import os\n\ndef f():\n    with g():\n        0` — a with-block inside
    the function, below a disallowed import. -/
def cx8_tree : PyModule :=
  ⟨[.importStmt ["os"],
    .functionDef "f" [] [.withStmt [.callName "g" []] [.exprStmt .constExpr]]]⟩

def cx8_code : RawCode := ⟨47, 4, .ok cx8_tree⟩

/-- A single clean function whose only violation is an import of `os`. -/
def wit7_tree : PyModule :=
  ⟨[.importStmt ["os"], .functionDef "f" [] [.ret .constExpr]]⟩

def wit7_code : RawCode := ⟨33, 3, .ok wit7_tree⟩

/-- `from math import *` beside a clean function. -/
def wit7s_tree : PyModule :=
  ⟨[.importFrom (some "math") ["*"], .functionDef "f" [] [.ret .constExpr]]⟩

def wit7s_code : RawCode := ⟨42, 3, .ok wit7s_tree⟩

/-- A single clean function whose only violation is a with-block. -/
def wit8_tree : PyModule :=
  ⟨[.functionDef "f" [] [.withStmt [.callName "g" []] [.exprStmt .constExpr]]]⟩

def wit8_code : RawCode := ⟨36, 3, .ok wit8_tree⟩

/-- `def safe_div(a, b):\n    try:\n        return a + b\n    except
    Exception:\n        return 0` — a try/except inside an otherwise clean
    function. -/
def try_tree : PyModule :=
  ⟨[.functionDef "safe_div" ["a", "b"]
    [.tryStmt [.ret (.binop (.nameExpr "a") (.nameExpr "b"))] [.ret .constExpr] [] []]]⟩

def try_code : RawCode := ⟨88, 4, .ok try_tree⟩

/-- The record shape `{"uses": 0, "ok": 0}` that `_load_dynamic_tools`
    persists for a newly loaded tool (registry.py, line 175). -/
def bootstrapCounterRecord : MetaRecord := { uses := some 0, ok := some 0 }

/-- A record holding only its `name` key. -/
def nameOnlyRecord : MetaRecord := { name := some "t" }

/-- A freshly registered record with zeroed counters. -/
def freshRecord : MetaRecord :=
  { name := some "t", desc := some "", signature := some "", origin := some "dynamic",
    uses := some 0, success := some 0 }

def demoState5 : RegistryState := ⟨[], [("t", freshRecord)], [], [("t", freshRecord)]⟩

/-- A stored record with accumulated counters, for re-registration. -/
def storedRecord9 : MetaRecord :=
  { name := some "t", desc := some "old", signature := some "(x)", origin := some "dynamic",
    uses := some 5, success := some 3 }

def demoFn9 : PyFn :=
  ⟨"t", .functionDef "t" ["x"] [.ret (.nameExpr "x")], .moduleGlobals (dynModuleName "t")⟩

def demoState9 : RegistryState := ⟨[("t", demoFn9)], [("t", storedRecord9)], [], [("t", storedRecord9)]⟩

/-- A supplied metadata dict that does not set the counter keys. -/
def patch9 : MetaRecord := { desc := some "new desc", signature := some "(x)", origin := some "dynamic" }

/-- A built-in tool whose call never returns (for instance `fetch_waveforms`
    blocked on the network forever). -/
def hanging_builtin : TimedFn Unit Unit := ⟨fun _ => none⟩

/-! ## Helper lemmas -/

theorem lookupS_setEntry_self {α : Type} (l : List (String × α)) (k : String) (v : α) :
    lookupS (setEntry l k v) k = some v := by
  induction l with
  | nil => simp [setEntry, lookupS]
  | cons hd tl ih =>
    obtain ⟨k1, v1⟩ := hd
    by_cases h : k1 = k
    · simp [setEntry, h, lookupS]
    · simp [setEntry, h, lookupS, ih]

theorem lookupS_setEntry_ne {α : Type} (l : List (String × α)) (k k1 : String) (v : α)
    (h : k1 ≠ k) : lookupS (setEntry l k v) k1 = lookupS l k1 := by
  induction l with
  | nil =>
    show (if k = k1 then some v else lookupS [] k1) = lookupS [] k1
    rw [if_neg (Ne.symm h)]
  | cons hd tl ih =>
    obtain ⟨k2, v2⟩ := hd
    by_cases h2 : k2 = k
    · subst h2
      simp [setEntry, lookupS, Ne.symm h]
    · simp [setEntry, h2, lookupS, ih]

theorem checkPassesB_iff (n : Node) : checkPassesB n = true ↔ checkNode n = .ok () := by
  unfold checkPassesB
  cases h : checkNode n with
  | ok u => cases u; simp
  | error e => simp

theorem constructViolationB_iff (n : Node) :
    constructViolationB n = true ↔ checkNode n = .error .forbiddenConstruct := by
  unfold constructViolationB
  cases h : checkNode n with
  | ok u => simp
  | error e => cases e <;> simp

theorem importViolation_eq_some (n : Node) (m : String) :
    importViolation n = some m ↔ checkNode n = .error (.disallowedImport m) := by
  unfold importViolation
  cases h : checkNode n with
  | ok u => simp
  | error e => cases e <;> simp

theorem importViolation_none_of_ok (n : Node) (h : checkNode n = .ok ()) :
    importViolation n = none := by
  unfold importViolation
  rw [h]

theorem runChecks_ok_iff (l : List Node) :
    runChecks l = .ok () ↔ ∀ n ∈ l, checkNode n = .ok () := by
  induction l with
  | nil => simp [runChecks]
  | cons n ns ih =>
    cases h : checkNode n with
    | error e =>
      simp only [runChecks, h]
      constructor
      · intro hc; cases hc
      · intro hall
        have := hall n (by simp)
        rw [this] at h; cases h
    | ok u =>
      cases u
      simp only [runChecks, h]
      rw [ih]
      constructor
      · intro hall m hm
        rcases List.mem_cons.mp hm with rfl | hm2
        · exact h
        · exact hall m hm2
      · intro hall m hm; exact hall m (List.mem_cons_of_mem _ hm)

theorem runChecks_not_ok (l : List Node) (n : Node) (hn : n ∈ l) (e : ValErr)
    (he : checkNode n = .error e) : runChecks l ≠ .ok () := by
  intro hok
  have := (runChecks_ok_iff l).mp hok n hn
  rw [this] at he; cases he

theorem runChecks_error_uniform (l : List Node)
    (hall : ∀ n ∈ l, checkNode n = .ok () ∨ checkNode n = .error .forbiddenConstruct)
    (hex : ∃ n ∈ l, checkNode n = .error .forbiddenConstruct) :
    runChecks l = .error .forbiddenConstruct := by
  induction l with
  | nil => rcases hex with ⟨n, hn, _⟩; cases hn
  | cons n ns ih =>
    rcases hall n (by simp) with h | h
    · have hstep : runChecks (n :: ns) = runChecks ns := by simp [runChecks, h]
      rw [hstep]
      apply ih
      · intro m hm; exact hall m (List.mem_cons_of_mem _ hm)
      · rcases hex with ⟨m, hm, hme⟩
        rcases List.mem_cons.mp hm with rfl | hm2
        · rw [h] at hme; cases hme
        · exact ⟨m, hm2, hme⟩
    · simp [runChecks, h]

theorem runChecks_single_import (l : List Node) (m : String)
    (hall : ∀ n ∈ l, checkNode n = .ok () ∨ (importViolation n).isSome = true)
    (hfm : l.filterMap importViolation = [m]) :
    runChecks l = .error (.disallowedImport m) := by
  induction l with
  | nil => simp at hfm
  | cons n ns ih =>
    rcases hall n (by simp) with h | h
    · have hnone : importViolation n = none := importViolation_none_of_ok n h
      rw [List.filterMap_cons_none hnone] at hfm
      have hstep : runChecks (n :: ns) = runChecks ns := by simp [runChecks, h]
      rw [hstep]
      exact ih (fun m2 hm2 => hall m2 (List.mem_cons_of_mem _ hm2)) hfm
    · obtain ⟨m1, hm1⟩ := Option.isSome_iff_exists.mp h
      have hcn := (importViolation_eq_some n m1).mp hm1
      rw [List.filterMap_cons_some hm1] at hfm
      injection hfm with h1 h2
      subst h1
      simp [runChecks, hcn]

theorem structureOkB_parts (tree : PyModule) (h : structureOkB tree = true) :
    (tree.body.filter isFunctionDefB).length = 1 ∧
    (tree.body.filter fun n => !(isFunctionDefB n || isImportB n || isImportFromB n)).isEmpty
      = true := by
  unfold structureOkB at h
  rw [Bool.and_eq_true] at h
  exact ⟨by simpa using h.1, h.2⟩

theorem check_ast_of_structureOk (tree : PyModule) (h : structureOkB tree = true) :
    check_ast tree = runChecks (walkNodes tree.body) := by
  obtain ⟨h1, h2⟩ := structureOkB_parts tree h
  unfold check_ast
  rw [if_neg (by omega), if_pos h2]

theorem check_ast_not_ok_of_violation (tree : PyModule) (n : Node)
    (hn : n ∈ walkNodes tree.body) (e : ValErr) (he : checkNode n = .error e) :
    check_ast tree ≠ .ok () := by
  unfold check_ast
  intro hok
  split at hok
  · cases hok
  · split at hok
    · exact runChecks_not_ok _ n hn e he hok
    · cases hok

theorem extract_isOk_false_of_check_fail (code : RawCode) (fname : String) (tree : PyModule)
    (hp : code.parse = .ok tree) (hna : check_ast tree ≠ .ok ()) :
    isOkE (extract_function code fname) = false := by
  unfold extract_function
  split
  · rfl
  · split
    · rfl
    · rw [hp]
      cases hc : check_ast tree with
      | error e => simp [hc, isOkE]
      | ok u => cases u; exact absurd hc hna

theorem extract_function_ok_inv (code : RawCode) (fname : String) (fn : PyFn) (src : Node)
    (h : extract_function code fname = .ok (fn, src)) :
    fn = ⟨fname, src, .restricted safe_builtins⟩ ∧ moduleBinds src = [fname] := by
  unfold extract_function at h
  split at h
  · cases h
  split at h
  · cases h
  split at h
  · cases h
  rename_i tree hp
  split at h
  · cases h
  split at h
  · cases h
  rename_i target hft
  split at h
  · cases h
  rename_i fn1 hlk
  have hpair : fn1 = fn ∧ target = src := by
    have h2 := h
    simp only [Except.ok.injEq, Prod.mk.injEq] at h2
    exact h2
  obtain ⟨rfl, rfl⟩ := hpair
  unfold findTarget at hft
  have hpred := List.find?_some hft
  cases target with
  | functionDef nm ps b =>
    have hnm : nm = fname := by
      have hb : (nm == fname) = true := by simpa using hpred
      exact eq_of_beq hb
    subst hnm
    unfold execFunctionDef lookupS at hlk
    rw [if_pos rfl] at hlk
    injection hlk with hfn1
    exact ⟨hfn1.symm, by simp [moduleBinds]⟩
  | asyncFunctionDef nm ps b => simp at hpred
  | classDef nm b => simp at hpred
  | importStmt ms => simp at hpred
  | importFrom mo ns => simp at hpred
  | withStmt its b => simp at hpred
  | asyncWith its b => simp at hpred
  | asyncFor b => simp at hpred
  | lambdaExpr b => simp at hpred
  | tryStmt b hs o f => simp at hpred
  | callName f a => simp at hpred
  | callAttr o a as_ => simp at hpred
  | assign v => simp at hpred
  | ret v => simp at hpred
  | nameExpr i => simp at hpred
  | binop a b => simp at hpred
  | constExpr => simp at hpred
  | exprStmt v => simp at hpred
  | forStmt it b => simp at hpred

theorem checkWildcard_star (ns : List String) (h : ns.contains "*" = true) :
    checkWildcard ns = .error .wildcardImport := by
  induction ns with
  | nil => simp at h
  | cons a rest ih =>
    by_cases ha : a = "*"
    · simp [checkWildcard, ha]
    · have hrest : rest.contains "*" = true := by
        simp only [List.contains_cons, Bool.or_eq_true] at h
        rcases h with h1 | h1
        · exact absurd (eq_of_beq h1).symm ha
        · exact h1
      simp [checkWildcard, ha, ih hrest]

theorem wildcard_node_errors (n : Node) (h : hasWildcardB n = true) :
    checkNode n ≠ .ok () := by
  cases n with
  | importFrom mo ns =>
    intro hok
    have hok2 : (if is_allowed_import_root (mo.getD "") = true then checkWildcard ns
        else Except.error (ValErr.disallowedImport (mo.getD ""))) = Except.ok () := hok
    by_cases hr : is_allowed_import_root (mo.getD "") = true
    · rw [if_pos hr, checkWildcard_star ns (by simpa [hasWildcardB] using h)] at hok2
      cases hok2
    · rw [if_neg hr] at hok2
      cases hok2
  | functionDef nm ps b => simp [hasWildcardB] at h
  | asyncFunctionDef nm ps b => simp [hasWildcardB] at h
  | classDef nm b => simp [hasWildcardB] at h
  | importStmt ms => simp [hasWildcardB] at h
  | withStmt its b => simp [hasWildcardB] at h
  | asyncWith its b => simp [hasWildcardB] at h
  | asyncFor b => simp [hasWildcardB] at h
  | lambdaExpr b => simp [hasWildcardB] at h
  | tryStmt b hs o f => simp [hasWildcardB] at h
  | callName f a => simp [hasWildcardB] at h
  | callAttr o a as_ => simp [hasWildcardB] at h
  | assign v => simp [hasWildcardB] at h
  | ret v => simp [hasWildcardB] at h
  | nameExpr i => simp [hasWildcardB] at h
  | binop a b => simp [hasWildcardB] at h
  | constExpr => simp [hasWildcardB] at h
  | exprStmt v => simp [hasWildcardB] at h
  | forStmt it b => simp [hasWildcardB] at h

theorem with_node_forbidden (n : Node) (h : isWithNodeB n = true) :
    checkNode n = .error .forbiddenConstruct := by
  cases n <;> simp [isWithNodeB] at h <;> rfl

theorem count_true_add_count_false (l : List Bool) :
    l.count true + l.count false = l.length := by
  induction l with
  | nil => simp
  | cons c cs ih =>
    cases c <;> simp [List.count_cons] <;> omega

theorem mark_use_step (st : RegistryState) (name : String) (c : Bool) (m : MetaRecord)
    (u s : Nat) (hm : lookupS st.meta name = some m) (hu : m.uses = some u)
    (hs : m.success = some s) :
    lookupS (mark_use st name c).meta name =
      some { m with uses := some (u + 1), success := some (if c then s + 1 else s) } := by
  unfold mark_use
  have hne : m.isEmptyDict = false := by
    unfold MetaRecord.isEmptyDict
    rw [hu]
    simp
  simp only [hm]
  rw [if_neg (by simp [hne] : ¬ m.isEmptyDict = true)]
  simp only [lookupS_setEntry_self]
  cases c <;> simp [hu, hs]

theorem mark_use_fold (name : String) (calls : List Bool) :
    ∀ (st : RegistryState) (m : MetaRecord) (u s : Nat),
      lookupS st.meta name = some m → m.uses = some u → m.success = some s →
      usesOf (calls.foldl (fun st2 b => mark_use st2 name b) st) name = some (u + calls.length) ∧
      successOf (calls.foldl (fun st2 b => mark_use st2 name b) st) name
        = some (s + calls.count true) := by
  induction calls with
  | nil =>
    intro st m u s hm hu hs
    simp [usesOf, successOf, hm, hu, hs]
  | cons c cs ih =>
    intro st m u s hm hu hs
    have hstep := mark_use_step st name c m u s hm hu hs
    have hnext := ih (mark_use st name c) _ (u + 1) (if c then s + 1 else s) hstep rfl rfl
    rw [List.foldl_cons]

    constructor
    · rw [hnext.1]
      congr 1
      simp [List.length_cons]
      omega
    · rw [hnext.2]
      congr 1
      cases c <;> simp [List.count_cons] <;> omega

theorem insertByName_length (x : MetaView) (l : List MetaView) :
    (insertByName x l).length = l.length + 1 := by
  induction l with
  | nil => rfl
  | cons y ys ih =>
    unfold insertByName
    split
    · simp
    · simp [ih]

theorem sortByName_length (l : List MetaView) : (sortByName l).length = l.length := by
  induction l with
  | nil => rfl
  | cons x xs ih => simp [sortByName, insertByName_length, ih]

theorem filterMap_view_length (meta : List (String × MetaRecord))
    (h : meta.all (fun kv => kv.2.name.isSome) = true) :
    (meta.filterMap fun kv => viewRecord kv.2).length = meta.length := by
  induction meta with
  | nil => rfl
  | cons kv rest ih =>
    rw [List.all_cons, Bool.and_eq_true] at h
    obtain ⟨h1, h2⟩ := h
    obtain ⟨nm, hnm⟩ := Option.isSome_iff_exists.mp h1
    have hview : viewRecord kv.2 =
        some ⟨nm, kv.2.desc.getD "", kv.2.signature.getD "", kv.2.uses.getD 0,
              kv.2.success.getD 0, kv.2.origin.getD ""⟩ := by
      unfold viewRecord
      rw [hnm]
    rw [List.filterMap_cons, hview]
    simp [ih h2]

/-! ## Claim theorems -/

/-- C1: the claim says a Tier B (built-in) tool that does not return within
    the timeout is executed in a separate worker and yields `Timeout` after
    the worker is terminated.  The code's `run_in_sandbox` opens with an
    unconditional `return func(**params)`, so every tool runs in-process:
    on the hanging built-in it blocks forever and never raises
    `TimeoutError`; no call of `run_in_sandbox` can ever produce
    `TimeoutError`.  The unreachable subprocess branch
    (`worker_isolated_call`) would have produced `TimeoutError`, as the
    claim and the function's own docstring describe. -/
theorem run_in_sandbox_inline_no_timeout :
    run_in_sandbox hanging_builtin () 15 = SandboxOutcome.hang ∧
    run_in_sandbox hanging_builtin () 15 ≠ SandboxOutcome.timeoutError ∧
    (∀ (func : TimedFn Unit Unit) (params : Unit) (t : Nat),
        run_in_sandbox func params t ≠ SandboxOutcome.timeoutError) ∧
    worker_isolated_call hanging_builtin () 15 = SandboxOutcome.timeoutError := by
  refine ⟨rfl, by decide, ?_, rfl⟩
  intro func params t hc
  unfold run_in_sandbox at hc
  cases hfr : func.run params with
  | none => rw [hfr] at hc; cases hc
  | some pr =>
    obtain ⟨t0, r⟩ := pr
    rw [hfr] at hc
    cases hc

/-- C3: when validation (`extract_function`) fails, `register_dynamic_tool`
    re-raises the error to its caller and leaves the registry state — source
    files, catalog, metadata store and persisted store — exactly as it was:
    the failing call is the function's first statement, before any write. -/
theorem register_dynamic_atomic_on_failure (st : RegistryState) (name : String)
    (code : RawCode) (desc : String) (e : ValErr)
    (h : extract_function code name = .error e) :
    register_dynamic_tool st name code desc = (.error e, st) := by
  unfold register_dynamic_tool
  rw [h]

theorem register_dynamic_atomic_on_failure_witness :
    extract_function cx3_code "go" = .error (.disallowedImport "subprocess") ∧
    register_dynamic_tool emptyState "go" cx3_code "runs a command" =
      (.error (.disallowedImport "subprocess"), emptyState) :=
  ⟨rfl, register_dynamic_atomic_on_failure emptyState "go" cx3_code "runs a command"
    (.disallowedImport "subprocess") rfl⟩

/-- C5: starting from a stored record with `uses = 0` and `success = 0`, any
    interleaving of N successful and M failed `mark_use` calls leaves
    `uses = N + M` and `success = N`; and `mark_use` on a name with no
    stored record is a no-op returning the state unchanged. -/
theorem mark_use_counter_accounting :
    (∀ (st : RegistryState) (name : String) (calls : List Bool) (m : MetaRecord),
        lookupS st.meta name = some m → m.uses = some 0 → m.success = some 0 →
        usesOf (calls.foldl (fun st2 b => mark_use st2 name b) st) name
            = some (calls.count true + calls.count false) ∧
        successOf (calls.foldl (fun st2 b => mark_use st2 name b) st) name
            = some (calls.count true)) ∧
    (∀ (st : RegistryState) (name : String) (okFlag : Bool),
        lookupS st.meta name = none → mark_use st name okFlag = st) := by
  constructor
  · intro st name calls m hm hu hs
    obtain ⟨h1, h2⟩ := mark_use_fold name calls st m 0 0 hm hu hs
    refine ⟨?_, by simpa using h2⟩
    rw [h1]
    have hc := count_true_add_count_false calls
    congr 1
    omega
  · intro st name okFlag h
    unfold mark_use
    rw [h]

theorem mark_use_counter_accounting_witness :
    usesOf ([true, false, true].foldl (fun st2 b => mark_use st2 "t" b) demoState5) "t"
        = some 3 ∧
    successOf ([true, false, true].foldl (fun st2 b => mark_use st2 "t" b) demoState5) "t"
        = some 2 ∧
    mark_use emptyState "absent" true = emptyState := by
  obtain ⟨h1, h2⟩ := mark_use_counter_accounting.1 demoState5 "t" [true, false, true]
      freshRecord rfl rfl rfl
  exact ⟨by simpa using h1, by simpa using h2,
    mark_use_counter_accounting.2 emptyState "absent" true rfl⟩

/-- C2 amended: `extract_function` does compile the accepted candidate inside
    a restricted namespace whose builtins are exactly `safe_builtins`, but the
    callable that `register_dynamic_tool` ends up registering under the tool's
    name is the function re-imported from the written module file, bound to
    that module's ordinary global namespace with the full default builtins;
    the restricted-namespace callable would be registered only in the fallback
    case where the imported module lacks the name, which cannot happen for an
    accepted source. -/
theorem registered_callable_namespace (st : RegistryState) (name desc : String)
    (code : RawCode) (fn : PyFn) (src : Node)
    (h : extract_function code name = .ok (fn, src)) :
    fn.globalNs = .restricted safe_builtins ∧
    (register_dynamic_tool st name code desc).1 =
        .ok ⟨name, src, .moduleGlobals (dynModuleName name)⟩ ∧
    lookupS (register_dynamic_tool st name code desc).2.registry name =
        some ⟨name, src, .moduleGlobals (dynModuleName name)⟩ ∧
    GlobalNs.moduleGlobals (dynModuleName name) ≠ GlobalNs.restricted safe_builtins := by
  obtain ⟨hfn, hbinds⟩ := extract_function_ok_inv code name fn src h
  have hmem : name ∈ moduleBinds src := by
    rw [hbinds]
    simp
  refine ⟨by rw [hfn], ?_, ?_, by simp⟩
  · unfold register_dynamic_tool
    rw [h]
    simp [hmem]
  · unfold register_dynamic_tool
    rw [h]
    simp [hmem, register, lookupS_setEntry_self]

theorem registered_callable_namespace_witness :
    extract_function add_two_code "add_two" =
      .ok (⟨"add_two", add_two_src, .restricted safe_builtins⟩, add_two_src) ∧
    (⟨"add_two", add_two_src, .restricted safe_builtins⟩ : PyFn).globalNs
        = .restricted safe_builtins ∧
    lookupS (register_dynamic_tool emptyState "add_two" add_two_code "adds two numbers").2.registry
        "add_two" = some ⟨"add_two", add_two_src, .moduleGlobals (dynModuleName "add_two")⟩ := by
  refine ⟨rfl, ?_, ?_⟩
  · exact (registered_callable_namespace emptyState "add_two" "adds two numbers" add_two_code
      (⟨"add_two", add_two_src, .restricted safe_builtins⟩ : PyFn) add_two_src rfl).1
  · exact (registered_callable_namespace emptyState "add_two" "adds two numbers" add_two_code
      (⟨"add_two", add_two_src, .restricted safe_builtins⟩ : PyFn) add_two_src rfl).2.2.1

/-- C2 counterexample: for the accepted `add_two` source, the callable
    registered under the tool's name is bound to the imported module's global
    namespace, which is not the restricted safe-builtins namespace. -/
theorem registered_callable_ns_cx :
    lookupS (register_dynamic_tool emptyState "add_two" add_two_code "adds two numbers").2.registry
        "add_two" = some ⟨"add_two", add_two_src, .moduleGlobals (dynModuleName "add_two")⟩ ∧
    GlobalNs.moduleGlobals (dynModuleName "add_two") ≠ GlobalNs.restricted safe_builtins :=
  ⟨rfl, by decide⟩

/-- C9: re-registration under a name with a stored record keeps the
    accumulated counters when the supplied metadata does not set them,
    overwrites exactly the supplied fields (defaulting `desc`/`signature` to
    the empty string and `origin` to "unknown" when set in neither), silently
    replaces the prior catalog entry with no conflict error, leaves other
    names untouched, and persists the full store synchronously. -/
theorem register_merge_semantics (st : RegistryState) (name other : String) (func : PyFn)
    (meta m0 : MetaRecord) (u s : Nat)
    (hm : lookupS st.meta name = some m0) (hu : m0.uses = some u) (hs : m0.success = some s)
    (hpu : meta.uses = none) (hps : meta.success = none) (hne : other ≠ name) :
    lookupS (register st name func meta).registry name = some func ∧
    usesOf (register st name func meta) name = some u ∧
    successOf (register st name func meta) name = some s ∧
    descOf (register st name func meta) name = some ((oUpd meta.desc m0.desc).getD "") ∧
    sigOf (register st name func meta) name = some ((oUpd meta.signature m0.signature).getD "") ∧
    originOf (register st name func meta) name
        = some ((oUpd meta.origin m0.origin).getD "unknown") ∧
    lookupS (register st name func meta).meta other = lookupS st.meta other ∧
    lookupS (register st name func meta).registry other = lookupS st.registry other ∧
    (register st name func meta).metaFile = (register st name func meta).meta := by
  refine ⟨?_, ?_, ?_, ?_, ?_, ?_, ?_, ?_, ?_⟩ <;>
    simp [register, usesOf, successOf, descOf, sigOf, originOf, hm,
      lookupS_setEntry_self, lookupS_setEntry_ne _ _ _ _ hne,
      MetaRecord.updateWith, oUpd, hpu, hps, hu, hs]

theorem register_merge_semantics_witness :
    lookupS (register demoState9 "t" demoFn9 patch9).registry "t" = some demoFn9 ∧
    usesOf (register demoState9 "t" demoFn9 patch9) "t" = some 5 ∧
    successOf (register demoState9 "t" demoFn9 patch9) "t" = some 3 ∧
    descOf (register demoState9 "t" demoFn9 patch9) "t" = some "new desc" ∧
    lookupS (register demoState9 "t" demoFn9 patch9).meta "other"
        = lookupS demoState9.meta "other" := by
  obtain ⟨a1, a2, a3, a4, a5, a6, a7, a8, a9⟩ := register_merge_semantics demoState9 "t" "other"
      demoFn9 patch9 storedRecord9 5 3 rfl rfl rfl rfl rfl (by decide)
  exact ⟨a1, a2, a3, by simpa [patch9, storedRecord9, oUpd] using a4, a7⟩

/-- C4 amended: `format_tools_for_prompt` renders exactly one line per tool of
    the form `name(signature) - description uses=U ok=S` — the success counter
    is labelled `ok=`, not `success=` — and returns the explicit sentinel
    `(无已注册工具)` for the empty catalog; a freshly registered `add_two`
    yields a line containing `add_two` and `uses=0 ok=0`. -/
theorem format_for_injection_lines :
    format_tools_for_prompt [] = some "(无已注册工具)" ∧
    (∀ (meta : List (String × MetaRecord)) (vs : List MetaView),
        list_meta meta = some vs → vs ≠ [] →
        format_tools_for_prompt meta = some (String.intercalate "\n" (vs.map render_line)) ∧
        vs.length = meta.length) ∧
    format_tools_for_prompt
        (register_dynamic_tool emptyState "add_two" add_two_code "adds two numbers").2.meta
      = some "add_two(a, b) - adds two numbers uses=0 ok=0" := by
  refine ⟨rfl, ?_, rfl⟩
  intro meta vs hl hne
  have hguard : meta.all (fun kv => kv.2.name.isSome) = true := by
    by_contra hng
    unfold list_meta at hl
    rw [if_neg hng] at hl
    cases hl
  have hvs : vs = sortByName (meta.filterMap fun kv => viewRecord kv.2) := by
    unfold list_meta at hl
    rw [if_pos hguard] at hl
    injection hl with h1
    exact h1.symm
  constructor
  · unfold format_tools_for_prompt
    rw [hl]
    have hemp : vs.isEmpty = false := by
      cases vs with
      | nil => exact absurd rfl hne
      | cons x xs => rfl
    simp [hemp]
    intro hc
    exact absurd hc hne
  · rw [hvs, sortByName_length, filterMap_view_length meta hguard]

theorem format_for_injection_lines_witness :
    format_tools_for_prompt
        (register_dynamic_tool emptyState "add_two" add_two_code "adds two numbers").2.meta
      = some (String.intercalate "\n"
          ([(⟨"add_two", "adds two numbers", "(a, b)", 0, 0, "dynamic"⟩ : MetaView)].map
            render_line)) ∧
    ([(⟨"add_two", "adds two numbers", "(a, b)", 0, 0, "dynamic"⟩ : MetaView)]).length
      = (register_dynamic_tool emptyState "add_two" add_two_code
          "adds two numbers").2.meta.length := by
  exact format_for_injection_lines.2.1
    (register_dynamic_tool emptyState "add_two" add_two_code "adds two numbers").2.meta
    [⟨"add_two", "adds two numbers", "(a, b)", 0, 0, "dynamic"⟩] rfl (by decide)

/-- C4 counterexample: the catalog line for a freshly registered `add_two`
    reads `uses=0 ok=0`, not `uses=0 success=0` as the claim's line format
    prescribes: the code renderer and the spec-prescribed renderer disagree on
    the same state. -/
theorem format_label_cx :
    format_tools_for_prompt
        (register_dynamic_tool emptyState "add_two" add_two_code "adds two numbers").2.meta
      = some "add_two(a, b) - adds two numbers uses=0 ok=0" ∧
    spec_format_for_injection
        (register_dynamic_tool emptyState "add_two" add_two_code "adds two numbers").2.meta
      = some "add_two(a, b) - adds two numbers uses=0 success=0" ∧
    (some "add_two(a, b) - adds two numbers uses=0 ok=0" : Option String)
      ≠ some "add_two(a, b) - adds two numbers uses=0 success=0" :=
  ⟨rfl, rfl, by decide⟩

/-- C6 amended: reading the catalog succeeds exactly when every stored record
    has its `name` key; a read-back record has `desc`, `signature`, `uses`,
    `success` defaulted to `""`, `""`, `0`, `0`, but the read path defaults a
    missing `origin` to `""` — the `"unknown"` default exists only in the
    record `register` stores.  Reading fails (KeyError) on a record with no
    `name` key, a shape the bootstrap reconciliation itself persists. -/
theorem metadata_read_defaults :
    (∀ (meta : List (String × MetaRecord)),
        meta.all (fun kv => kv.2.name.isSome) = true → (list_meta meta).isSome = true) ∧
    (∀ (m : MetaRecord) (nm : String), m.name = some nm → m.desc = none →
        m.signature = none → m.origin = none → m.uses = none → m.success = none →
        viewRecord m = some ⟨nm, "", "", 0, 0, ""⟩) ∧
    (∀ (st : RegistryState) (name : String) (func : PyFn) (meta : MetaRecord),
        meta.origin = none → lookupS st.meta name = none →
        originOf (register st name func meta) name = some "unknown") := by
  refine ⟨?_, ?_, ?_⟩
  · intro meta h
    unfold list_meta
    rw [if_pos h]
    rfl
  · intro m nm h1 h2 h3 h4 h5 h6
    simp [viewRecord, h1, h2, h3, h4, h5, h6]
  · intro st name func meta h1 h2
    simp [register, originOf, lookupS_setEntry_self, h2, MetaRecord.updateWith, oUpd, h1,
      emptyRecord]

theorem metadata_read_defaults_witness :
    (list_meta [("t", nameOnlyRecord)]).isSome = true ∧
    viewRecord nameOnlyRecord = some ⟨"t", "", "", 0, 0, ""⟩ ∧
    originOf (register emptyState "t" demoFn9 emptyRecord) "t" = some "unknown" :=
  ⟨metadata_read_defaults.1 [("t", nameOnlyRecord)] rfl,
   metadata_read_defaults.2.1 nameOnlyRecord "t" rfl rfl rfl rfl rfl rfl,
   metadata_read_defaults.2.2 emptyState "t" demoFn9 emptyRecord rfl rfl⟩

/-- C6 counterexample: loading a store holding a record without a `name` key —
    the exact `{"uses": 0, "ok": 0}` shape `_load_dynamic_tools` itself
    persists — makes `list_meta` (and hence `format_for_injection`) fail with
    a KeyError instead of reading defaulted fields, and the read-path default
    for a missing `origin` is `""`, not `"unknown"`. -/
theorem metadata_read_failure_cx :
    list_meta (load_meta emptyState [("t", bootstrapCounterRecord)]).meta = none ∧
    viewRecord nameOnlyRecord = some ⟨"t", "", "", 0, 0, ""⟩ ∧
    ("" : String) ≠ "unknown" :=
  ⟨rfl, rfl, by decide⟩

/-- C7 amended: a candidate containing a disallowed-root import (or any
    wildcard import) never validates; the reported error is
    `DisallowedImport` naming the offending module whenever the import
    violation is the only kind of violation the walk can meet — an earlier
    gate (for example the top-level shape check) otherwise reports its own
    error first. -/
theorem disallowed_import_rejection :
    (∀ (code : RawCode) (fname : String) (tree : PyModule),
        code.parse = .ok tree → (disallowedModules tree).isEmpty = false →
        isOkE (extract_function code fname) = false) ∧
    (∀ (tree : PyModule) (m : String), structureOkB tree = true →
        ((walkNodes tree.body).all fun n => checkPassesB n || (importViolation n).isSome) = true →
        disallowedModules tree = [m] →
        check_ast tree = .error (.disallowedImport m)) ∧
    (∀ (code : RawCode) (fname : String) (tree : PyModule),
        code.parse = .ok tree → containsWildcard tree = true →
        isOkE (extract_function code fname) = false) := by
  refine ⟨?_, ?_, ?_⟩
  · intro code fname tree hp hdm
    apply extract_isOk_false_of_check_fail code fname tree hp
    cases hdm2 : disallowedModules tree with
    | nil => rw [hdm2] at hdm; cases hdm
    | cons m rest =>
      have hmem : m ∈ (walkNodes tree.body).filterMap importViolation := by
        have : disallowedModules tree = (walkNodes tree.body).filterMap importViolation := rfl
        rw [this] at hdm2
        rw [hdm2]
        simp
      obtain ⟨n, hn, hv⟩ := List.mem_filterMap.mp hmem
      exact check_ast_not_ok_of_violation tree n hn _ ((importViolation_eq_some n m).mp hv)
  · intro tree m hstruct hall hdm
    rw [check_ast_of_structureOk tree hstruct]
    apply runChecks_single_import (walkNodes tree.body) m
    · intro n hn
      rcases Bool.or_eq_true_iff.mp (List.all_eq_true.mp hall n hn) with h1 | h1
      · exact Or.inl ((checkPassesB_iff n).mp h1)
      · exact Or.inr h1
    · exact hdm
  · intro code fname tree hp hw
    apply extract_isOk_false_of_check_fail code fname tree hp
    obtain ⟨n, hn, hv⟩ := List.any_eq_true.mp hw
    cases hcn : checkNode n with
    | ok u => cases u; exact absurd hcn (wildcard_node_errors n hv)
    | error e => exact check_ast_not_ok_of_violation tree n hn e hcn

theorem disallowed_import_rejection_witness :
    isOkE (extract_function wit7_code "f") = false ∧
    check_ast wit7_tree = .error (.disallowedImport "os") ∧
    isOkE (extract_function wit7s_code "f") = false :=
  ⟨disallowed_import_rejection.1 wit7_code "f" wit7_tree rfl rfl,
   disallowed_import_rejection.2.1 wit7_tree "os" rfl rfl rfl,
   disallowed_import_rejection.2.2 wit7s_code "f" wit7s_tree rfl rfl⟩

/-- C7 counterexample: a source containing `import os` — root outside the
    allow-list — beside two top-level function definitions is rejected with
    the shape-check error, not with DisallowedImport: the claim's promised
    error kind is shadowed by the earlier gate. -/
theorem disallowed_import_shadowed_cx :
    disallowedModules cx7_tree = ["os"] ∧
    extract_function cx7_code "f" = .error .notOneFunction ∧
    isDisallowedImportE (extract_function cx7_code "f") = false :=
  ⟨rfl, rfl, rfl⟩

/-- C8 amended: a candidate containing a context-manager block never
    validates; the reported error is `ForbiddenConstruct` whenever the
    forbidden-construct violations are the only violations in the tree —
    otherwise an earlier-met violation (for example a disallowed import at
    top level) or the shape check reports its own error first. -/
theorem with_block_rejection :
    (∀ (code : RawCode) (fname : String) (tree : PyModule),
        code.parse = .ok tree → containsWith tree = true →
        isOkE (extract_function code fname) = false) ∧
    (∀ (tree : PyModule), structureOkB tree = true →
        ((walkNodes tree.body).all fun n => checkPassesB n || constructViolationB n) = true →
        containsWith tree = true →
        check_ast tree = .error .forbiddenConstruct) := by
  constructor
  · intro code fname tree hp hw
    apply extract_isOk_false_of_check_fail code fname tree hp
    obtain ⟨n, hn, hv⟩ := List.any_eq_true.mp hw
    exact check_ast_not_ok_of_violation tree n hn _ (with_node_forbidden n hv)
  · intro tree hstruct hall hw
    rw [check_ast_of_structureOk tree hstruct]
    obtain ⟨n, hn, hv⟩ := List.any_eq_true.mp hw
    apply runChecks_error_uniform
    · intro n2 hn2
      rcases Bool.or_eq_true_iff.mp (List.all_eq_true.mp hall n2 hn2) with h1 | h1
      · exact Or.inl ((checkPassesB_iff n2).mp h1)
      · exact Or.inr ((constructViolationB_iff n2).mp h1)
    · exact ⟨n, hn, with_node_forbidden n hv⟩

theorem with_block_rejection_witness :
    isOkE (extract_function wit8_code "f") = false ∧
    check_ast wit8_tree = .error .forbiddenConstruct :=
  ⟨with_block_rejection.1 wit8_code "f" wit8_tree rfl rfl,
   with_block_rejection.2 wit8_tree rfl rfl rfl⟩

/-- C8 counterexample: a source within the size limits and syntactically
    parseable whose single function contains a with-block, but whose walk
    meets an `import os` first, is rejected with DisallowedImport("os") and
    not with ForbiddenConstruct. -/
theorem with_block_shadowed_cx :
    containsWith cx8_tree = true ∧
    (cx8_code.numChars ≤ MAX_FUNC_SOURCE_CHARS ∧ cx8_code.numNewlines + 1 ≤ MAX_FUNC_LINES) ∧
    extract_function cx8_code "f" = .error (.disallowedImport "os") ∧
    ValErr.disallowedImport "os" ≠ ValErr.forbiddenConstruct :=
  ⟨rfl, by decide, rfl, by decide⟩

/-- C10: a try/except statement is not a forbidden construct — the per-node
    check accepts every try node, and a candidate that passes all the other
    gates while containing a try block inside its function validates
    successfully, returning the callable compiled from the target function
    in the restricted namespace. -/
theorem try_except_accepted :
    (∀ (b hs o f : List Node), checkNode (.tryStmt b hs o f) = .ok ()) ∧
    (∀ (code : RawCode) (fname : String) (tree : PyModule) (target : Node),
        code.numChars ≤ MAX_FUNC_SOURCE_CHARS → code.numNewlines + 1 ≤ MAX_FUNC_LINES →
        code.parse = .ok tree → check_ast tree = .ok () → containsTry tree = true →
        findTarget tree.body fname = some target →
        extract_function code fname =
          .ok (⟨fname, target, .restricted safe_builtins⟩, target)) := by
  constructor
  · intro b hs o f
    rfl
  · intro code fname tree target h1 h2 hp hc htry hft
    unfold extract_function
    rw [if_neg (by omega), if_neg (by omega)]
    simp only [hp, hc, hft]
    unfold findTarget at hft
    have hpred := List.find?_some hft
    cases target with
    | functionDef nm ps b =>
      have hnm : nm = fname := eq_of_beq (by simpa using hpred)
      subst hnm
      unfold execFunctionDef lookupS
      rw [if_pos rfl]
    | asyncFunctionDef nm ps b => simp at hpred
    | classDef nm b => simp at hpred
    | importStmt ms => simp at hpred
    | importFrom mo ns => simp at hpred
    | withStmt its b => simp at hpred
    | asyncWith its b => simp at hpred
    | asyncFor b => simp at hpred
    | lambdaExpr b => simp at hpred
    | tryStmt b2 hs o f => simp at hpred
    | callName f a => simp at hpred
    | callAttr o a as_ => simp at hpred
    | assign v => simp at hpred
    | ret v => simp at hpred
    | nameExpr i => simp at hpred
    | binop a b => simp at hpred
    | constExpr => simp at hpred
    | exprStmt v => simp at hpred
    | forStmt it b => simp at hpred

theorem try_except_accepted_witness :
    checkNode (.tryStmt [] [] [] []) = .ok () ∧
    check_ast try_tree = .ok () ∧
    containsTry try_tree = true ∧
    extract_function try_code "safe_div" =
      .ok (⟨"safe_div", .functionDef "safe_div" ["a", "b"]
            [.tryStmt [.ret (.binop (.nameExpr "a") (.nameExpr "b"))] [.ret .constExpr] [] []],
            .restricted safe_builtins⟩,
           .functionDef "safe_div" ["a", "b"]
            [.tryStmt [.ret (.binop (.nameExpr "a") (.nameExpr "b"))] [.ret .constExpr] [] []]) := by
  refine ⟨try_except_accepted.1 [] [] [] [], rfl, rfl, ?_⟩
  exact try_except_accepted.2 try_code "safe_div" try_tree
    (.functionDef "safe_div" ["a", "b"]
      [.tryStmt [.ret (.binop (.nameExpr "a") (.nameExpr "b"))] [.ret .constExpr] [] []])
    (by decide) (by decide) rfl rfl rfl rfl

end ToolRuntime
